import Mathlib

/-!
# Verification of the ExO pair-comparison server core (src/main.py)

Shallow embedding of the ExO FastAPI module:

* `get_two_unique_images` — sampling of an unused unordered image pair
  (main.py lines 56-68).  The Python `random.sample` draws are modelled by an
  explicit stream of candidate pairs `draws`; the unbounded `while True` loop
  becomes structural recursion over that stream, with `SampleResult.outOfDraws`
  standing for the case where the stream ends before an unused pair is found
  (the Python loop would keep drawing).
* `ServerState` — the process-wide mutable state: `used_combinations`, the
  contents of `selections.csv` (as a list of lines), the `output/` archive
  files, and the `latest_archive` global.
* the request handlers `index`, `select_image`, `download_csv`,
  `upload_image`, `delete_all_images`, `force_finish`, each a pure state
  transformer.  Wall-clock timestamps (`datetime.now().strftime`) are inputs.
-/

/-- Result of one call to `get_two_unique_images` (main.py lines 56-68).
`exhausted` is the `return None, None` branch; `found i1 i2` is the
`return img1, img2` branch; `outOfDraws` models the draw stream ending
while the Python loop would still be spinning. -/
inductive SampleResult
  | exhausted
  | found (img1 img2 : String)
  | outOfDraws
deriving DecidableEq

/-- `tuple(sorted([img1, img2]))` from main.py line 65: the canonical
(sorted) form of an unordered pair of image names.  Python compares strings
lexicographically by code points, which is the order on the underlying
character lists. -/
def canonPair (a b : String) : String × String :=
  if a.data < b.data then (a, b) else (b, a)

/-- Two strings with equal character lists are equal. -/
lemma string_data_inj {a b : String} (h : a.data = b.data) : a = b := by
  cases a; cases b; exact congrArg String.mk h

/-- `total_possible = (len(images) * (len(images) - 1)) // 2` from
main.py line 58 (for `n = 0` Python computes `(0 * -1) // 2 = 0`, matching
truncated `Nat` subtraction). -/
def totalPossible (images : List String) : Nat :=
  images.length * (images.length - 1) / 2

/-- The `while True` draw loop of main.py lines 63-68, over an explicit
stream of candidate draws.  Each draw is a `random.sample(images, 2)`
result: two distinct members of the pool, in drawn order. -/
def sampleLoop (used : Finset (String × String)) :
    List (String × String) → SampleResult × Finset (String × String)
  | [] => (SampleResult.outOfDraws, used)
  | (i1, i2) :: rest =>
      if canonPair i1 i2 ∈ used then sampleLoop used rest
      else (SampleResult.found i1 i2, insert (canonPair i1 i2) used)

/-- `get_two_unique_images` (main.py lines 56-68): report exhaustion when
`len(used_combinations) >= total_possible`, otherwise draw until an unused
pair turns up.  Returns the result together with the new `used_combinations`. -/
def get_two_unique_images (images : List String) (used : Finset (String × String))
    (draws : List (String × String)) : SampleResult × Finset (String × String) :=
  if totalPossible images ≤ used.card then (SampleResult.exhausted, used)
  else sampleLoop used draws

/-- A draw stream is valid when every candidate pair consists of two
distinct members of the pool, as `random.sample(images, 2)` guarantees. -/
def ValidDraws (images : List String) (draws : List (String × String)) : Prop :=
  ∀ d ∈ draws, d.1 ∈ images ∧ d.2 ∈ images ∧ d.1 ≠ d.2

/-- The draw loop never reports exhaustion: that branch lives before it. -/
lemma sampleLoop_fst_ne_exhausted (used : Finset (String × String))
    (draws : List (String × String)) :
    (sampleLoop used draws).1 ≠ SampleResult.exhausted := by
  induction draws with
  | nil => simp [sampleLoop]
  | cons d rest ih =>
      obtain ⟨i1, i2⟩ := d
      by_cases h : canonPair i1 i2 ∈ used <;> simp [sampleLoop, h, ih]

/-- `get_two_unique_images` reports exhaustion exactly when the used set
has reached the total-possible-pairs bound. -/
lemma get_two_fst_exhausted_iff (images : List String)
    (used : Finset (String × String)) (draws : List (String × String)) :
    (get_two_unique_images images used draws).1 = SampleResult.exhausted ↔
      totalPossible images ≤ used.card := by
  unfold get_two_unique_images
  by_cases h : totalPossible images ≤ used.card
  · simp [h]
  · simp [h, sampleLoop_fst_ne_exhausted]

/-- Anatomy of a successful draw loop run: the returned pair is one of the
draws, its canonical form was unused, and it is the only insertion made. -/
lemma sampleLoop_found_spec {used u' : Finset (String × String)}
    {draws : List (String × String)} {a b : String}
    (h : sampleLoop used draws = (SampleResult.found a b, u')) :
    (a, b) ∈ draws ∧ canonPair a b ∉ used ∧ u' = insert (canonPair a b) used := by
  induction draws with
  | nil => simp [sampleLoop] at h
  | cons d rest ih =>
      obtain ⟨i1, i2⟩ := d
      by_cases hmem : canonPair i1 i2 ∈ used
      · simp only [sampleLoop, if_pos hmem] at h
        obtain ⟨hd, hu, he⟩ := ih h
        exact ⟨List.mem_cons_of_mem _ hd, hu, he⟩
      · simp only [sampleLoop, if_neg hmem, Prod.mk.injEq,
          SampleResult.found.injEq] at h
        obtain ⟨⟨ha, hb⟩, hu⟩ := h
        subst ha; subst hb
        exact ⟨List.mem_cons_self _ _, hmem, hu.symm⟩

/-- Anatomy of a successful `get_two_unique_images` call. -/
lemma get_two_found_spec {images : List String}
    {used u' : Finset (String × String)} {draws : List (String × String)}
    {a b : String}
    (h : get_two_unique_images images used draws = (SampleResult.found a b, u')) :
    used.card < totalPossible images ∧ (a, b) ∈ draws ∧
      canonPair a b ∉ used ∧ u' = insert (canonPair a b) used := by
  unfold get_two_unique_images at h
  by_cases hc : totalPossible images ≤ used.card
  · simp [hc] at h
  · rw [if_neg hc] at h
    exact ⟨Nat.lt_of_not_le hc, sampleLoop_found_spec h⟩

/-- C4: for every pool with fewer than 2 images the sampler reports
exhaustion at once, leaving the used set untouched and consuming no draw:
the result is `exhausted` for every draw stream, including the empty one,
so the two-element draw is never attempted (main.py lines 56-61,
`total_possible = 0` and `len(used_combinations) >= 0`). -/
theorem small_pool_exhausts_immediately
    (images : List String) (h : images.length < 2)
    (used : Finset (String × String)) (draws : List (String × String)) :
    get_two_unique_images images used draws = (SampleResult.exhausted, used) := by
  have htot : totalPossible images = 0 := by
    unfold totalPossible
    interval_cases h' : images.length <;> simp
  unfold get_two_unique_images
  rw [htot]
  simp

/-- C4 witness: the empty pool with an empty used set and no draws. -/
theorem small_pool_exhausts_immediately_witness :
    ([] : List String).length < 2 ∧
      get_two_unique_images [] ∅ [] = (SampleResult.exhausted, ∅) :=
  ⟨by decide, small_pool_exhausts_immediately [] (by decide) ∅ []⟩

/-- The set of canonical (strictly sorted) pairs over a pool `s`: exactly
the values `canonPair` can produce from two distinct members of `s`. -/
def allPairs (s : Finset String) : Finset (String × String) :=
  (s ×ˢ s).filter fun p => p.1.data < p.2.data

/-- A canonical pair of two distinct pool members lies in `allPairs`. -/
lemma canonPair_mem_allPairs {images : List String} {a b : String}
    (ha : a ∈ images) (hb : b ∈ images) (hne : a ≠ b) :
    canonPair a b ∈ allPairs images.toFinset := by
  unfold canonPair allPairs
  rcases lt_or_gt_of_ne (fun hd => hne (string_data_inj hd)) with h | h
  · rw [if_pos h]
    exact Finset.mem_filter.mpr
      ⟨Finset.mem_product.mpr ⟨List.mem_toFinset.mpr ha, List.mem_toFinset.mpr hb⟩, h⟩
  · rw [if_neg (not_lt_of_gt h)]
    exact Finset.mem_filter.mpr
      ⟨Finset.mem_product.mpr ⟨List.mem_toFinset.mpr hb, List.mem_toFinset.mpr ha⟩, h⟩

/-- Adjoining a fresh element `a` to the pool adds exactly the canonical
pairs `canonPair a b` for old members `b`. -/
lemma allPairs_insert (a : String) (s : Finset String) (ha : a ∉ s) :
    allPairs (insert a s) = allPairs s ∪ s.image (fun b => canonPair a b) := by
  ext ⟨x, y⟩
  simp only [allPairs, Finset.mem_filter, Finset.mem_product, Finset.mem_insert,
    Finset.mem_union, Finset.mem_image]
  constructor
  · rintro ⟨⟨hx, hy⟩, hlt⟩
    rcases hx with hx | hx
    · rcases hy with hy | hy
      · exact absurd (hx ▸ hy ▸ hlt) (lt_irrefl _)
      · subst hx
        refine Or.inr ⟨y, hy, ?_⟩
        simp [canonPair, hlt]
    · rcases hy with hy | hy
      · subst hy
        refine Or.inr ⟨x, hx, ?_⟩
        simp [canonPair, not_lt_of_gt hlt]
      · exact Or.inl ⟨⟨hx, hy⟩, hlt⟩
  · rintro (⟨⟨hx, hy⟩, hlt⟩ | ⟨b, hb, hcanon⟩)
    · exact ⟨⟨Or.inr hx, Or.inr hy⟩, hlt⟩
    · have hab : a.data ≠ b.data := fun h => ha (string_data_inj h ▸ hb)
      unfold canonPair at hcanon
      rcases lt_or_gt_of_ne hab with h | h
      · rw [if_pos h] at hcanon
        obtain ⟨hxa, hyb⟩ := Prod.mk.injEq .. ▸ hcanon
        exact ⟨⟨Or.inl hxa.symm, Or.inr (hyb.symm ▸ hb)⟩, hxa ▸ hyb ▸ h⟩
      · rw [if_neg (not_lt_of_gt h)] at hcanon
        obtain ⟨hxb, hya⟩ := Prod.mk.injEq .. ▸ hcanon
        exact ⟨⟨Or.inr (hxb.symm ▸ hb), Or.inl hya.symm⟩, hxb ▸ hya ▸ h⟩

/-- Counting: over a pool of `n` names there are `n.choose 2` canonical pairs. -/
lemma allPairs_card (s : Finset String) : (allPairs s).card = s.card.choose 2 := by
  induction s using Finset.induction_on with
  | empty => simp [allPairs]
  | insert ha =>
      rename_i a s ih
      rw [allPairs_insert a s ha]
      have hdisj : Disjoint (allPairs s) (s.image fun b => canonPair a b) := by
        rw [Finset.disjoint_left]
        rintro ⟨x, y⟩ hp hq
        simp only [allPairs, Finset.mem_filter, Finset.mem_product] at hp
        simp only [Finset.mem_image] at hq
        obtain ⟨b, hb, hcanon⟩ := hq
        unfold canonPair at hcanon
        by_cases h : a.data < b.data
        · rw [if_pos h] at hcanon
          obtain ⟨hxa, _⟩ := Prod.mk.injEq .. ▸ hcanon
          exact ha (hxa ▸ hp.1.1)
        · rw [if_neg h] at hcanon
          obtain ⟨_, hya⟩ := Prod.mk.injEq .. ▸ hcanon
          exact ha (hya ▸ hp.1.2)
      have hinj : Set.InjOn (fun b => canonPair a b) s := by
        intro b1 hb1 b2 hb2 heq
        have hab1 : a ≠ b1 := fun h => ha (h ▸ hb1)
        have hab2 : a ≠ b2 := fun h => ha (h ▸ hb2)
        simp only [canonPair] at heq
        by_cases h1 : a.data < b1.data <;> by_cases h2 : a.data < b2.data
        · rw [if_pos h1, if_pos h2] at heq
          exact congrArg Prod.snd heq
        · rw [if_pos h1, if_neg h2] at heq
          exact absurd (congrArg Prod.fst heq) hab2
        · rw [if_neg h1, if_pos h2] at heq
          exact absurd (congrArg Prod.fst heq).symm hab1
        · rw [if_neg h1, if_neg h2] at heq
          exact congrArg Prod.fst heq
      rw [Finset.card_union_of_disjoint hdisj, ih,
        Finset.card_image_of_injOn hinj,
        Finset.card_insert_of_not_mem ha]
      have : (s.card + 1).choose 2 = s.card.choose 1 + s.card.choose 2 :=
        Nat.choose_succ_succ s.card 1
      rw [this, Nat.choose_one_right]
      omega

/-- With a duplicate-free pool, the code's `total_possible` formula counts
exactly the canonical pairs over the pool. -/
lemma totalPossible_eq_card_allPairs {images : List String}
    (hnd : images.Nodup) :
    totalPossible images = (allPairs images.toFinset).card := by
  rw [allPairs_card, Nat.choose_two_right, List.toFinset_card_of_nodup hnd]
  rfl

/-- Traces of the sampler against a fixed pool: `Reaches images used issued`
holds when, starting from an empty `used_combinations` (process start or just
after a reset), a sequence of successful `get_two_unique_images` calls with
valid draw streams has issued the canonical pairs `issued` (in order) and left
the used set at `used`. -/
inductive Reaches (images : List String) :
    Finset (String × String) → List (String × String) → Prop
  | nil : Reaches images ∅ []
  | step {used used' : Finset (String × String)}
      {issued draws : List (String × String)} {i1 i2 : String} :
      Reaches images used issued →
      ValidDraws images draws →
      get_two_unique_images images used draws = (SampleResult.found i1 i2, used') →
      Reaches images used' (issued ++ [canonPair i1 i2])

/-- Invariant carried by every sampler trace: the used set is exactly the
set of issued canonical pairs, no pair was issued twice, every issued pair
is a canonical pair of two distinct pool members, and the used set counts
the successful calls. -/
lemma reaches_invariant {images : List String}
    {used : Finset (String × String)} {issued : List (String × String)}
    (hr : Reaches images used issued) :
    used = issued.toFinset ∧ issued.Nodup ∧
      (∀ p ∈ issued, p ∈ allPairs images.toFinset) ∧
      used.card = issued.length := by
  induction hr with
  | nil => simp
  | step hr hvalid hget ih =>
      rename_i used used' issued draws i1 i2
      obtain ⟨hset, hnd, hmem, hcard⟩ := ih
      obtain ⟨_, hdraw, hnew, hins⟩ := get_two_found_spec hget
      obtain ⟨h1, h2, hne⟩ := hvalid _ hdraw
      have hnotin : canonPair i1 i2 ∉ issued := by
        intro hmem'
        exact hnew (hset ▸ List.mem_toFinset.mpr hmem')
      refine ⟨?_, ?_, ?_, ?_⟩
      · rw [hins, hset]
        ext p
        simp [List.mem_toFinset, or_comm]
      · rw [List.nodup_append]
        exact ⟨hnd, List.nodup_singleton _, by simpa using hnotin⟩
      · intro p hp
        rcases List.mem_append.mp hp with hp | hp
        · exact hmem p hp
        · rw [List.mem_singleton.mp hp]
          exact canonPair_mem_allPairs h1 h2 hne
      · rw [hins, Finset.card_insert_of_not_mem hnew, hcard]
        simp

/-- C2: for a fixed duplicate-free pool of at least two images, any sequence
of successful sampler calls starting from an empty used set never issues the
same canonical pair twice, and a further call reports exhaustion (returns no
pair) exactly when the number of successful calls so far equals
`C(n,2) = n*(n-1)/2` (main.py lines 56-68). -/
theorem sampler_no_repeats_and_exact_exhaustion
    (images : List String) (_h2 : 2 ≤ images.length) (hnd : images.Nodup)
    {used : Finset (String × String)} {issued : List (String × String)}
    (hr : Reaches images used issued) :
    issued.Nodup ∧ used.card = issued.length ∧
      ∀ draws, ((get_two_unique_images images used draws).1 = SampleResult.exhausted ↔
        issued.length = totalPossible images) := by
  obtain ⟨hset, hndiss, hmem, hcard⟩ := reaches_invariant hr
  have hsub : used ⊆ allPairs images.toFinset := by
    intro p hp
    exact hmem p (List.mem_toFinset.mp (hset ▸ hp))
  have hle : used.card ≤ totalPossible images := by
    rw [totalPossible_eq_card_allPairs hnd]
    exact Finset.card_le_card hsub
  refine ⟨hndiss, hcard, fun draws => ?_⟩
  rw [get_two_fst_exhausted_iff, ← hcard]
  omega

/-- C2 witness: the two-image pool `["a", "b"]` after one successful call. -/
theorem sampler_no_repeats_and_exact_exhaustion_witness :
    2 ≤ (["a", "b"] : List String).length ∧ (["a", "b"] : List String).Nodup ∧
      Reaches ["a", "b"] (insert (canonPair "a" "b") ∅) ([] ++ [canonPair "a" "b"]) ∧
      ([] ++ [canonPair "a" "b"] : List (String × String)).Nodup ∧
      (insert (canonPair "a" "b") (∅ : Finset (String × String))).card =
        ([] ++ [canonPair "a" "b"] : List (String × String)).length ∧
      ∀ draws, ((get_two_unique_images ["a", "b"] (insert (canonPair "a" "b") ∅) draws).1 =
          SampleResult.exhausted ↔
        ([] ++ [canonPair "a" "b"] : List (String × String)).length = totalPossible ["a", "b"]) := by
  have hvalid : ValidDraws ["a", "b"] [("a", "b")] :=
    show ∀ d ∈ [(("a" : String), ("b" : String))],
      d.1 ∈ ["a", "b"] ∧ d.2 ∈ ["a", "b"] ∧ d.1 ≠ d.2 by decide
  have htrace : Reaches ["a", "b"] (insert (canonPair "a" "b") ∅) ([] ++ [canonPair "a" "b"]) :=
    Reaches.step Reaches.nil hvalid
      (show get_two_unique_images ["a", "b"] ∅ [("a", "b")] =
        (SampleResult.found "a" "b", insert (canonPair "a" "b") ∅) from rfl)
  have h := sampler_no_repeats_and_exact_exhaustion ["a", "b"] (by decide) (by decide) htrace
  exact ⟨by decide, by decide, htrace, h.1, h.2.1, h.2.2⟩

/-- C5: on every successful sampling call the pair added to
`used_combinations` is the canonical sorted 2-tuple of the two drawn
identifiers, while the returned pair is the draw itself in its original
order; the returned identifiers are two distinct pool members
(main.py lines 63-68). -/
theorem success_inserts_canonical_returns_drawn_order
    (images : List String) (used used' : Finset (String × String))
    (draws : List (String × String)) (i1 i2 : String)
    (hvalid : ValidDraws images draws)
    (hget : get_two_unique_images images used draws = (SampleResult.found i1 i2, used')) :
    used' = insert (canonPair i1 i2) used ∧
      canonPair i1 i2 ∉ used ∧
      (canonPair i1 i2 = (i1, i2) ∨ canonPair i1 i2 = (i2, i1)) ∧
      (canonPair i1 i2).1 < (canonPair i1 i2).2 ∧
      (i1, i2) ∈ draws ∧
      i1 ∈ images ∧ i2 ∈ images ∧ i1 ≠ i2 := by
  obtain ⟨_, hdraw, hnew, hins⟩ := get_two_found_spec hget
  obtain ⟨h1, h2, hne⟩ := hvalid _ hdraw
  refine ⟨hins, hnew, ?_, ?_, hdraw, h1, h2, hne⟩
  · unfold canonPair
    by_cases h : i1.data < i2.data
    · rw [if_pos h]; exact Or.inl rfl
    · rw [if_neg h]; exact Or.inr rfl
  · unfold canonPair
    rcases lt_or_gt_of_ne (fun hd => hne (string_data_inj hd)) with h | h
    · rw [if_pos h]; exact String.lt_iff_toList_lt.mpr h
    · rw [if_neg (not_lt_of_gt h)]; exact String.lt_iff_toList_lt.mpr h

/-- C5 witness: drawing `("b", "a")` from the pool `["a", "b"]` returns the
draw in its original order while inserting the sorted pair `("a", "b")`. -/
theorem success_inserts_canonical_returns_drawn_order_witness :
    ValidDraws ["a", "b"] [("b", "a")] ∧
      get_two_unique_images ["a", "b"] ∅ [("b", "a")] =
        (SampleResult.found "b" "a", insert (canonPair "b" "a") ∅) ∧
      (insert (canonPair "b" "a") (∅ : Finset (String × String)) =
          insert (canonPair "b" "a") ∅ ∧
        canonPair "b" "a" ∉ (∅ : Finset (String × String)) ∧
        (canonPair "b" "a" = ("b", "a") ∨ canonPair "b" "a" = ("a", "b")) ∧
        (canonPair "b" "a").1 < (canonPair "b" "a").2 ∧
        ("b", "a") ∈ [(("b" : String), ("a" : String))] ∧
        "b" ∈ ["a", "b"] ∧ "a" ∈ ["a", "b"] ∧ "b" ≠ "a") := by
  have hvalid : ValidDraws ["a", "b"] [("b", "a")] :=
    show ∀ d ∈ [(("b" : String), ("a" : String))],
      d.1 ∈ ["a", "b"] ∧ d.2 ∈ ["a", "b"] ∧ d.1 ≠ d.2 by decide
  have hget : get_two_unique_images ["a", "b"] ∅ [("b", "a")] =
      (SampleResult.found "b" "a", insert (canonPair "b" "a") ∅) := rfl
  exact ⟨hvalid, hget,
    success_inserts_canonical_returns_drawn_order ["a", "b"] ∅ _ _ "b" "a" hvalid hget⟩

/-- A tiny file-store model for the `output/` directory: association list of
(path, lines).  `fsWrite` is `open(path, 'w')`: it overwrites an existing
file and creates a missing one. -/
def fsWrite (fs : List (String × List String)) (name : String)
    (content : List String) : List (String × List String) :=
  if (fs.map Prod.fst).contains name then
    fs.map fun e => if e.1 = name then (name, content) else e
  else fs ++ [(name, content)]

/-- `os.path.exists` plus reading: the stored lines of `name`, if present. -/
def fsRead (fs : List (String × List String)) (name : String) :
    Option (List String) :=
  (fs.find? fun e => e.1 = name).map Prod.snd

/-- The process-wide mutable state of main.py: `used_combinations`
(line 49), the lines of `output/selections.csv` (`CSV_FILE`, line 40), the
archive files written under `output/`, and the `latest_archive` global
(line 46). -/
structure ServerState where
  usedCombinations : Finset (String × String)
  csvLines : List String
  archives : List (String × List String)
  latestArchive : Option String
deriving DecidableEq

/-- State at process start (main.py lines 45-53): no archive yet, empty
used set, and `selections.csv` freshly created with the pandas header row
`selected,other`. -/
def initState : ServerState :=
  { usedCombinations := ∅
    csvLines := ["selected,other"]
    archives := []
    latestArchive := none }

/-- `os.path.join("output", f"selection_[timestamp].csv")` from main.py
lines 79 and 154. -/
def archiveFilename (ts : String) : String :=
  "output/selection_" ++ ts ++ ".csv"

/-- The archive-and-reset block inlined in `index` (main.py lines 76-89):
set `latest_archive`, copy the current CSV into the timestamped archive
file, truncate the CSV by writing the empty string (so the file has zero
lines afterwards), and clear `used_combinations`. -/
def archive_and_reset (st : ServerState) (ts : String) : ServerState :=
  { usedCombinations := ∅
    csvLines := []
    archives := fsWrite st.archives (archiveFilename ts) st.csvLines
    latestArchive := some (archiveFilename ts) }

/-- `force_finish` (main.py lines 149-165): the same archive-copy,
CSV-truncation and `used_combinations.clear()` sequence, performed
unconditionally. -/
def force_finish (st : ServerState) (ts : String) : ServerState :=
  { usedCombinations := ∅
    csvLines := []
    archives := fsWrite st.archives (archiveFilename ts) st.csvLines
    latestArchive := some (archiveFilename ts) }

/-- `select_image` (main.py lines 98-102): `pd.DataFrame([[selected,
other]]).to_csv(CSV_FILE, mode="a", header=False)` appends the single line
`selected,other-value` to the CSV. -/
def select_image (selected other : String) (st : ServerState) : ServerState :=
  { st with csvLines := st.csvLines ++ [selected ++ "," ++ other] }

/-- What the `index` handler renders (main.py lines 71-95). -/
inductive IndexPage
  | comparison (img1 img2 : String)
  | finished
deriving DecidableEq

/-- `index` (main.py lines 71-95): sample a pair; on success render the
comparison page with the updated used set; on exhaustion archive and reset
and render `finished.html`.  `none` models the draw stream running out
while the Python loop would still be drawing. -/
def index (images : List String) (st : ServerState)
    (draws : List (String × String)) (ts : String) :
    Option (IndexPage × ServerState) :=
  match get_two_unique_images images st.usedCombinations draws with
  | (SampleResult.found i1 i2, used') =>
      some (IndexPage.comparison i1 i2, { st with usedCombinations := used' })
  | (SampleResult.exhausted, _) => some (IndexPage.finished, archive_and_reset st ts)
  | (SampleResult.outOfDraws, _) => none

/-- Result of `download_csv` (main.py lines 115-119). -/
inductive DownloadResult
  | fileResp (path : String) (content : List String)
  | plainResp (status : Nat) (content : String)
deriving DecidableEq

/-- `download_csv` (main.py lines 115-119): `if latest_archive and
os.path.exists(latest_archive)` serve the archived file, otherwise a 404
plain response.  Python truthiness makes the empty string falsy. -/
def download_csv (st : ServerState) : DownloadResult :=
  match st.latestArchive with
  | none => DownloadResult.plainResp 404 "No archived file available."
  | some p =>
      if p = "" then DownloadResult.plainResp 404 "No archived file available."
      else
        match fsRead st.archives p with
        | some content => DownloadResult.fileResp p content
        | none => DownloadResult.plainResp 404 "No archived file available."

/-- Python `str.endswith`, modelled on the character lists underlying the
strings. -/
def strEndsWith (s suffix : String) : Bool :=
  List.isSuffixOf suffix.data s.data

/-- Python `str.lower`, modelled character by character. -/
def strLower (s : String) : String :=
  ⟨s.data.map Char.toLower⟩

/-- `file.filename.lower().endswith((".tif", ".tiff"))` from main.py
line 129. -/
def isTiffName (name : String) : Bool :=
  strEndsWith (strLower name) ".tif" || strEndsWith (strLower name) ".tiff"

/-- Writing an uploaded file into the images folder (main.py lines 132-134):
an existing file of the same name is overwritten, so the set of names gains
`name` if absent and is unchanged otherwise.  The folder is the list of
names `os.listdir` would report. -/
def storeName (folder : List String) (name : String) : List String :=
  if name ∈ folder then folder else folder ++ [name]

/-- Result of `upload_image` (main.py lines 126-136). -/
inductive UploadResult
  | redirect (status : Nat) (url : String)
  | errorResp (status : Nat) (content : String)
deriving DecidableEq

/-- `upload_image` (main.py lines 126-136): iterate over the batch; on the
first name that is not a TIFF return a 400 response at once (earlier items
have already been written), otherwise store each file and finally redirect
to `/upload`. -/
def upload_image (folder : List String) : List String → UploadResult × List String
  | [] => (UploadResult.redirect 303 "/upload", folder)
  | name :: rest =>
      if isTiffName name then upload_image (storeName folder name) rest
      else (UploadResult.errorResp 400 ("File " ++ name ++ " is not a TIFF."), folder)

/-- `delete_all_images` (main.py lines 138-147): remove every file in the
images folder (the `os.remove` error branch is not modelled: removals
succeed) and redirect to `/upload`. -/
def delete_all_images (_folder : List String) : UploadResult × List String :=
  (UploadResult.redirect 303 "/upload", [])

/-- Membership after a single store. -/
lemma mem_storeName {folder : List String} {name n : String} :
    n ∈ storeName folder name ↔ n ∈ folder ∨ n = name := by
  unfold storeName
  by_cases h : name ∈ folder
  · rw [if_pos h]
    constructor
    · exact Or.inl
    · rintro (hn | rfl) <;> [exact hn; exact h]
  · rw [if_neg h]
    simp

/-- Membership after storing a whole batch. -/
lemma mem_foldl_storeName {folder : List String} {names : List String}
    {n : String} :
    n ∈ names.foldl storeName folder ↔ n ∈ folder ∨ n ∈ names := by
  induction names generalizing folder with
  | nil => simp
  | cons m rest ih =>
      simp only [List.foldl_cons, ih, mem_storeName, List.mem_cons]
      tauto

/-- Running `upload_image` on a batch whose first non-TIFF item is `bad`
stores exactly the items before `bad` and stops with the 400 error. -/
lemma upload_image_reject (post : List String) (bad : String)
    (hbad : isTiffName bad = false) :
    ∀ pre : List String, (∀ n ∈ pre, isTiffName n = true) → ∀ folder,
      upload_image folder (pre ++ bad :: post) =
        (UploadResult.errorResp 400 ("File " ++ bad ++ " is not a TIFF."),
          pre.foldl storeName folder) := by
  intro pre
  induction pre with
  | nil =>
      intro _ folder
      simp only [List.nil_append, List.foldl_nil]
      unfold upload_image
      rw [hbad]
      simp
  | cons m rest ih =>
      intro hpre folder
      have hm : isTiffName m = true := hpre m (List.mem_cons_self _ _)
      simp only [List.cons_append, List.foldl_cons]
      unfold upload_image
      rw [hm]
      simp only [ite_true]
      exact ih (fun n hn => hpre n (List.mem_cons_of_mem _ hn)) (storeName folder m)

/-- C8: when a batch contains a non-TIFF item, `upload_image` rejects it
with the descriptive 400 error naming the file; every item before it in the
batch has already been stored, while the offending item and everything after
it are not — the batch is not atomic (main.py lines 126-136). -/
theorem upload_batch_non_atomic_rejection
    (folder : List String) (pre post : List String) (bad : String)
    (hpre : ∀ n ∈ pre, isTiffName n = true)
    (hbad : isTiffName bad = false) :
    upload_image folder (pre ++ bad :: post) =
      (UploadResult.errorResp 400 ("File " ++ bad ++ " is not a TIFF."),
        pre.foldl storeName folder) ∧
      (∀ n ∈ pre, n ∈ pre.foldl storeName folder) ∧
      (bad ∉ folder → bad ∉ pre.foldl storeName folder) ∧
      (∀ n ∈ pre.foldl storeName folder, n ∈ folder ∨ n ∈ pre) := by
  have hbadpre : bad ∉ pre := fun h => by
    rw [hpre bad h] at hbad
    exact Bool.noConfusion hbad
  refine ⟨?_, ?_, ?_, ?_⟩
  · exact upload_image_reject post bad hbad pre hpre folder
  · exact fun n hn => mem_foldl_storeName.mpr (Or.inr hn)
  · intro hnot hmem
    rcases mem_foldl_storeName.mp hmem with h | h
    · exact hnot h
    · exact hbadpre h
  · exact fun n hn => mem_foldl_storeName.mp hn

/-- C8 witness: the batch `["a.tif", "b.png", "c.tif"]` uploaded into an
empty folder stores `a.tif`, rejects `b.png` with the 400 message, and
never stores `c.tif`. -/
theorem upload_batch_non_atomic_rejection_witness :
    (∀ n ∈ ["a.tif"], isTiffName n = true) ∧ isTiffName "b.png" = false ∧
      (upload_image [] (["a.tif"] ++ "b.png" :: ["c.tif"]) =
        (UploadResult.errorResp 400 ("File " ++ "b.png" ++ " is not a TIFF."),
          ["a.tif"].foldl storeName []) ∧
        (∀ n ∈ ["a.tif"], n ∈ ["a.tif"].foldl storeName ([] : List String)) ∧
        ("b.png" ∉ ([] : List String) →
          "b.png" ∉ ["a.tif"].foldl storeName ([] : List String)) ∧
        (∀ n ∈ ["a.tif"].foldl storeName ([] : List String),
          n ∈ ([] : List String) ∨ n ∈ ["a.tif"])) := by
  refine ⟨by decide, by decide, ?_⟩
  exact upload_batch_non_atomic_rejection [] ["a.tif"] ["c.tif"] "b.png"
    (by decide) (by decide)

/-- C1 (divergence witness): after the archive-and-reset transition the
active log is truncated to a zero-byte file, not to header-only
(`clear_file.write("")`, main.py lines 86-87 and 160-161), so
`archive_and_reset` followed by `append(X, Y)` leaves the active log with
exactly the one record `X,Y` but without the header row `selected,other`
that the initial log (main.py lines 52-53) carries. -/
theorem post_reset_append_yields_headerless_log :
    initState.csvLines = ["selected,other"] ∧
      (select_image "imgA.tif" "imgB.tif"
        (archive_and_reset initState "2025_01_01_000000")).csvLines =
        ["imgA.tif,imgB.tif"] ∧
      "selected,other" ∉
        (select_image "imgA.tif" "imgB.tif"
          (archive_and_reset initState "2025_01_01_000000")).csvLines := by
  refine ⟨rfl, rfl, ?_⟩
  decide

/-- C6 (divergence witness): the very first force-finish with zero appended
records archives the header-only log and clears the used set, but a second
force-finish with zero records appended since that reset archives an empty
(zero-line) file, because the reset truncated the active log to empty
rather than header-only (main.py lines 149-165). -/
theorem force_finish_after_reset_archives_empty :
    fsRead (force_finish initState "2025_01_01_000000").archives
        (archiveFilename "2025_01_01_000000") = some ["selected,other"] ∧
      (force_finish (force_finish initState "2025_01_01_000000")
        "2025_01_01_000001").usedCombinations = ∅ ∧
      fsRead (force_finish (force_finish initState "2025_01_01_000000")
          "2025_01_01_000001").archives
        (archiveFilename "2025_01_01_000001") = some ([] : List String) ∧
      some ([] : List String) ≠ some ["selected,other"] := by
  refine ⟨?_, rfl, ?_, ?_⟩ <;> decide

/-- C3: the FINISHED state is transient.  If a "get next comparison"
request just archived and reset (rendered `finished.html`), the state it
left behind has an empty used set, and the very next `index` request
returns a comparison pair whenever the image pool has at least two members
(main.py lines 71-95): with `used_combinations` empty the first draw is
necessarily unused. -/
theorem finished_not_sticky
    (images0 images : List String) (st st' : ServerState)
    (draws0 : List (String × String)) (ts ts' : String)
    (d : String × String) (rest : List (String × String))
    (h2 : 2 ≤ images.length)
    (hfin : index images0 st draws0 ts = some (IndexPage.finished, st')) :
    st'.usedCombinations = ∅ ∧
      index images st' (d :: rest) ts' =
        some (IndexPage.comparison d.1 d.2,
          { st' with usedCombinations := insert (canonPair d.1 d.2) ∅ }) := by
  have hst' : st' = archive_and_reset st ts := by
    unfold index at hfin
    rcases hg : get_two_unique_images images0 st.usedCombinations draws0 with ⟨r, u⟩
    rw [hg] at hfin
    cases r with
    | exhausted => simpa using hfin.symm
    | found i1 i2 => simp at hfin
    | outOfDraws => simp at hfin
  have hused : st'.usedCombinations = ∅ := by rw [hst']; rfl
  refine ⟨hused, ?_⟩
  have htot : 1 ≤ totalPossible images := by
    unfold totalPossible
    have h1 : 1 ≤ images.length - 1 := by omega
    have : 2 * 1 ≤ images.length * (images.length - 1) :=
      Nat.mul_le_mul h2 h1
    omega
  obtain ⟨d1, d2⟩ := d
  unfold index get_two_unique_images
  rw [hused]
  rw [if_neg (by simp; omega)]
  simp only [sampleLoop, Finset.not_mem_empty, if_neg, ite_false]

/-- C3 witness: an empty pool forces the archive transition, and the next
request on the pool `["a.tif", "b.tif"]` serves a comparison again. -/
theorem finished_not_sticky_witness :
    2 ≤ (["a.tif", "b.tif"] : List String).length ∧
      index [] initState [] "t0" =
        some (IndexPage.finished, archive_and_reset initState "t0") ∧
      ((archive_and_reset initState "t0").usedCombinations = ∅ ∧
        index ["a.tif", "b.tif"] (archive_and_reset initState "t0")
            [("a.tif", "b.tif")] "t1" =
          some (IndexPage.comparison ("a.tif", "b.tif").1 ("a.tif", "b.tif").2,
            { archive_and_reset initState "t0" with
                usedCombinations := insert (canonPair "a.tif" "b.tif") ∅ })) := by
  refine ⟨by decide, rfl, ?_⟩
  exact finished_not_sticky [] ["a.tif", "b.tif"] initState
    (archive_and_reset initState "t0") [] "t0" "t1" ("a.tif", "b.tif") []
    (by decide) rfl

/-- The archive filename embeds the timestamp injectively. -/
lemma archiveFilename_inj (t1 t2 : String) :
    archiveFilename t1 = archiveFilename t2 ↔ t1 = t2 := by
  constructor
  · intro h
    unfold archiveFilename at h
    have hd : ("output/selection_".data ++ (t1.data ++ ".csv".data)) =
        ("output/selection_".data ++ (t2.data ++ ".csv".data)) := by
      have := congrArg String.data h
      simpa [String.data_append] using this
    have h1 := List.append_cancel_left hd
    have h2 := List.append_cancel_right h1
    cases t1; cases t2
    exact congrArg String.mk h2
  · intro h; rw [h]

/-- C7 counterexample: two archive events in immediate succession within
the same second (equal `YYYY_MM_DD_HHMMSS` timestamps) produce the SAME
archive identifier, and after both events only one archive file exists —
the second `open(..., 'w')` overwrote the first (main.py lines 77-83 and
153-158).  This refutes the claim that consecutive archive events always
yield distinct filenames. -/
theorem same_second_archives_collide :
    (archive_and_reset (archive_and_reset initState "2025_01_01_000000")
        "2025_01_01_000000").latestArchive =
      (archive_and_reset initState "2025_01_01_000000").latestArchive ∧
      (archive_and_reset (archive_and_reset initState "2025_01_01_000000")
          "2025_01_01_000000").archives.map Prod.fst =
        [archiveFilename "2025_01_01_000000"] := by
  refine ⟨rfl, ?_⟩
  decide

/-- C7 as amended: the archive filename is `output/selection_<timestamp>.csv`
with the timestamp at second resolution, and two consecutive archive events
(no appends between) yield distinct identifiers exactly when their
timestamps differ; equal (same-second) timestamps collide. -/
theorem archive_names_distinct_iff_timestamps_differ
    (st : ServerState) (t1 t2 : String) :
    (archive_and_reset st t1).latestArchive = some (archiveFilename t1) ∧
      (archive_and_reset (archive_and_reset st t1) t2).latestArchive =
        some (archiveFilename t2) ∧
      (archiveFilename t1 ≠ archiveFilename t2 ↔ t1 ≠ t2) :=
  ⟨rfl, rfl, not_iff_not.mpr (archiveFilename_inj t1 t2)⟩

/-- C9: `used_combinations` survives pool changes.  Concretely: upload
`a.tif, b.tif, c.tif`, issue all three pairs, delete every image, upload
the fresh pair `d.tif, e.tif`; the next sampling call reports exhaustion
(because the three stale pairs still outnumber `C(2,2) = 1`) even though
the pair of the two currently present images was never issued
(main.py lines 56-61 and 138-147). -/
theorem stale_used_set_causes_false_exhaustion :
    (upload_image [] ["a.tif", "b.tif", "c.tif"]).2 = ["a.tif", "b.tif", "c.tif"] ∧
      get_two_unique_images ["a.tif", "b.tif", "c.tif"] ∅ [("a.tif", "b.tif")] =
        (SampleResult.found "a.tif" "b.tif", insert (canonPair "a.tif" "b.tif") ∅) ∧
      get_two_unique_images ["a.tif", "b.tif", "c.tif"]
          (insert (canonPair "a.tif" "b.tif") ∅) [("a.tif", "c.tif")] =
        (SampleResult.found "a.tif" "c.tif",
          insert (canonPair "a.tif" "c.tif") (insert (canonPair "a.tif" "b.tif") ∅)) ∧
      get_two_unique_images ["a.tif", "b.tif", "c.tif"]
          (insert (canonPair "a.tif" "c.tif") (insert (canonPair "a.tif" "b.tif") ∅))
          [("b.tif", "c.tif")] =
        (SampleResult.found "b.tif" "c.tif",
          insert (canonPair "b.tif" "c.tif")
            (insert (canonPair "a.tif" "c.tif") (insert (canonPair "a.tif" "b.tif") ∅))) ∧
      (delete_all_images ["a.tif", "b.tif", "c.tif"]).2 = [] ∧
      (upload_image [] ["d.tif", "e.tif"]).2 = ["d.tif", "e.tif"] ∧
      get_two_unique_images ["d.tif", "e.tif"]
          (insert (canonPair "b.tif" "c.tif")
            (insert (canonPair "a.tif" "c.tif") (insert (canonPair "a.tif" "b.tif") ∅)))
          [("d.tif", "e.tif")] =
        (SampleResult.exhausted,
          insert (canonPair "b.tif" "c.tif")
            (insert (canonPair "a.tif" "c.tif") (insert (canonPair "a.tif" "b.tif") ∅))) ∧
      canonPair "d.tif" "e.tif" ∉
        insert (canonPair "b.tif" "c.tif")
          (insert (canonPair "a.tif" "c.tif")
            (insert (canonPair "a.tif" "b.tif") (∅ : Finset (String × String)))) ∧
      "d.tif" ∈ ["d.tif", "e.tif"] ∧ "e.tif" ∈ ["d.tif", "e.tif"] ∧
      "d.tif" ≠ "e.tif" := by
  refine ⟨rfl, ?_, ?_, ?_, rfl, rfl, ?_, ?_, ?_, ?_, ?_⟩ <;> decide

/-- C10: `download_csv` answers 404 with body `No archived file available.`
in the initial state (no archive event yet, `latest_archive = None`), and
it serves file contents only when an archive identifier has been recorded
and that file exists in the output store (main.py lines 45-46 and 115-119). -/
theorem download_requires_recorded_archive
    (st : ServerState) (p : String) (c : List String)
    (h : download_csv st = DownloadResult.fileResp p c) :
    download_csv initState =
        DownloadResult.plainResp 404 "No archived file available." ∧
      st.latestArchive = some p ∧ fsRead st.archives p = some c := by
  refine ⟨rfl, ?_⟩
  unfold download_csv at h
  rcases hla : st.latestArchive with _ | q
  · rw [hla] at h
    simp at h
  · rw [hla] at h
    dsimp only at h
    by_cases hq : q = ""
    · rw [if_pos hq] at h
      simp at h
    · rw [if_neg hq] at h
      rcases hread : fsRead st.archives q with _ | content
      · rw [hread] at h
        simp at h
      · rw [hread] at h
        obtain ⟨hp, hc⟩ := DownloadResult.fileResp.injEq .. ▸ h
        subst hp
        exact ⟨rfl, hc ▸ hread⟩

/-- C10 witness: after one archive event from the initial state the latest
archive is downloadable and its recorded content comes back. -/
theorem download_requires_recorded_archive_witness :
    download_csv (archive_and_reset initState "2025_01_01_000000") =
        DownloadResult.fileResp (archiveFilename "2025_01_01_000000")
          ["selected,other"] ∧
      (download_csv initState =
          DownloadResult.plainResp 404 "No archived file available." ∧
        (archive_and_reset initState "2025_01_01_000000").latestArchive =
          some (archiveFilename "2025_01_01_000000") ∧
        fsRead (archive_and_reset initState "2025_01_01_000000").archives
            (archiveFilename "2025_01_01_000000") =
          some ["selected,other"]) :=
  ⟨by decide, download_requires_recorded_archive _ _ _ (by decide)⟩
